import Mathlib

/-!
Shallow embedding of the OddsEngine proxy server.

The embedding follows the request handler of `src/railway-proxy-server.js`
(the handler of `src/railway-proxy-server-fixed.js` is logically identical,
differing only in log lines and message wording).  The handler of a
`GET /v1/*` request:

  1. builds the upstream URL from the base URL, the inbound path and the
     form-urlencoded query string, and uses that URL as the cache key;
  2. on a fresh cache entry returns the stored payload with HTTP 200;
  3. otherwise resolves the API key (header `x-api-key` falling back on the
     environment key via JS `||`, so empty strings are falsy), failing with
     HTTP 401 `missing_api_key` when none resolves;
  4. otherwise issues one `fetch`; a non-2xx status is surfaced with the same
     status wrapped in an `api_error` envelope; a 2xx body is parsed as JSON,
     stored in the cache and returned; every thrown failure (network error,
     body-read failure, JSON parse failure) is caught and surfaced as
     HTTP 500 `proxy_error`.

External effects are modelled as oracles passed to the pure handler: the
time of each `Date.now()` call, the outcome of the single `fetch` the
handler may issue, and the JSON parse function (payloads are an opaque
type `J`).  The returned `Option String` records the API key the fetch was
issued with (`none` = no upstream call was made).
-/

namespace OddsEngineProxy

/-- Upstream base URL, the constant `ODDSENGINE_BASE_URL` of the source. -/
def ODDSENGINE_BASE_URL : String := "https://api.oddsengine.dev"

/-- Cache TTL in milliseconds: the source constant `CACHE_DURATION = 60 * 1000`. -/
def CACHE_DURATION : Nat := 60 * 1000

/-! Query-string serialization, `new URLSearchParams(req.query).toString()`:
the WHATWG `application/x-www-form-urlencoded` serializer.  ASCII
alphanumerics and `*` `-` `.` `_` are emitted verbatim, the space becomes
`+`, and every other character becomes the percent-encoding of its UTF-8
bytes with uppercase hexadecimal digits. -/

/-- Characters the form-urlencoded serializer leaves unescaped. -/
def allowedChar (c : Char) : Bool :=
  c.isAlpha || c.isDigit || c == '*' || c == '-' || c == '.' || c == '_'

/-- Uppercase hexadecimal digit for a value below 16. -/
def hexDigit (n : Nat) : Char :=
  if n < 10 then Char.ofNat (48 + n) else Char.ofNat (55 + n)

/-- Percent-encoding of one byte. -/
def pctByte (b : Nat) : List Char :=
  ['%', hexDigit (b / 16), hexDigit (b % 16)]

/-- UTF-8 byte sequence of one character (scalar value below `0x110000`). -/
def utf8Bytes (c : Char) : List Nat :=
  let n := c.toNat
  if n < 128 then [n]
  else if n < 2048 then [192 + n / 64, 128 + n % 64]
  else if n < 65536 then [224 + n / 4096, 128 + n / 64 % 64, 128 + n % 64]
  else [240 + n / 262144, 128 + n / 4096 % 64, 128 + n / 64 % 64, 128 + n % 64]

/-- Form-urlencoded serialization of one character. -/
def encodeChar (c : Char) : List Char :=
  if allowedChar c then [c]
  else if c == ' ' then ['+']
  else (utf8Bytes c).flatMap pctByte

/-- Form-urlencoded serialization of one key or value. -/
def encodeComponent (s : String) : List Char :=
  s.data.flatMap encodeChar

/-- Join with ampersand separators, as the serializer joins its pairs. -/
def joinAmp : List (List Char) → List Char
  | [] => []
  | [t] => t
  | t :: ts => t ++ '&' :: joinAmp ts

/-- Full serialization: pairs `key=value` joined by ampersands. -/
def urlSearchParamsToString (q : List (String × String)) : String :=
  ⟨joinAmp (q.map fun p => encodeComponent p.1 ++ '=' :: encodeComponent p.2)⟩

/-- An inbound request as the handler sees it: `req.path` (the path part of
the URL, never containing a question mark), the parsed query `req.query` as
an ordered mapping, and `req.headers['x-api-key']` (`none` = header absent;
`some ""` = header present with an empty value). -/
structure Request where
  path : String
  query : List (String × String)
  apiKeyHeader : Option String
deriving DecidableEq, Repr

/-- Upstream URL derivation of the source: base URL, inbound path, then the
serialized query string preceded by a question mark when it is nonempty. -/
def buildUrl (req : Request) : String :=
  let queryString := urlSearchParamsToString req.query
  ODDSENGINE_BASE_URL ++ req.path ++ (if queryString = "" then "" else "?" ++ queryString)

variable {J : Type}

/-- One stored cache value, the object `{ data, timestamp }` of `cache.set`. -/
structure CacheEntry (J : Type) where
  data : J
  timestamp : Nat
deriving DecidableEq, Repr

/-- The in-memory cache, a JS `Map`, as an association list with unique keys. -/
abbrev Cache (J : Type) := List (String × CacheEntry J)

/-- Lookup, `cache.get(cacheKey)`. -/
def cacheGet (cache : Cache J) (k : String) : Option (CacheEntry J) :=
  (cache.find? fun p => p.1 == k).map Prod.snd

/-- Insert-or-overwrite, `cache.set(cacheKey, entry)`. -/
def cacheSet (cache : Cache J) (k : String) (e : CacheEntry J) : Cache J :=
  (k, e) :: cache.filter fun p => !(p.1 == k)

/-- JS truthiness of an optional string: `undefined` and `''` are falsy. -/
def truthy : Option String → Bool
  | none => false
  | some s => s != ""

/-- JS `a || b` on optional strings. -/
def jsOr (a b : Option String) : Option String :=
  if truthy a then a else b

/-- Key resolution with the guard of the source: `apiKey = hdr || env` and
the `if (!apiKey)` check, so the result is `some` exactly when `apiKey` is
truthy. -/
def resolveApiKey (hdr env : Option String) : Option String :=
  let apiKey := jsOr hdr env
  if truthy apiKey then apiKey else none

/-- Outcome of reading the response body: the text step of both
`response.text()` and `response.json()`, which can throw. -/
inductive BodyRead where
  | ok (text : String)
  | failed (msg : String)
deriving DecidableEq, Repr

/-- Outcome of the single `fetch(url, ...)` the handler may issue. -/
inductive FetchOutcome where
  | netError (msg : String)
  | resp (status : Nat) (body : BodyRead)
deriving DecidableEq, Repr

/-- The `response.ok` flag of node-fetch: status in `[200, 300)`. -/
def statusOk (status : Nat) : Bool := decide (200 ≤ status ∧ status < 300)

/-- Outbound body: a JSON payload via `res.json(data)`, or the structured
error envelope `{ error, message, status? }`. -/
inductive Body (J : Type) where
  | json (data : J)
  | err (error : String) (message : String) (status : Option Nat)
deriving DecidableEq, Repr

/-- Outbound response: HTTP status plus body. -/
structure Response (J : Type) where
  status : Nat
  body : Body J
deriving DecidableEq, Repr

/-- Continuation of the handler once the cache-hit fast path was not taken:
key resolution, the guarded 401, the fetch, error translation, and the cache
write on success.  Follows lines 52-94 of `railway-proxy-server.js`. -/
def handleMiss (parseJson : String → Except String J) (API_KEY : Option String)
    (cache : Cache J) (req : Request) (cacheKey : String) (tStore : Nat)
    (upstream : FetchOutcome) : Response J × Cache J × Option String :=
  match resolveApiKey req.apiKeyHeader API_KEY with
  | none =>
      (⟨401, Body.err "missing_api_key" "API key required via X-API-Key header or env var" none⟩,
       cache, none)
  | some apiKey =>
    match upstream with
    | FetchOutcome.netError msg =>
        (⟨500, Body.err "proxy_error" msg none⟩, cache, some apiKey)
    | FetchOutcome.resp status body =>
      if statusOk status then
        match body with
        | BodyRead.failed msg =>
            (⟨500, Body.err "proxy_error" msg none⟩, cache, some apiKey)
        | BodyRead.ok text =>
          match parseJson text with
          | Except.error msg =>
              (⟨500, Body.err "proxy_error" msg none⟩, cache, some apiKey)
          | Except.ok data =>
              (⟨200, Body.json data⟩, cacheSet cache cacheKey ⟨data, tStore⟩, some apiKey)
      else
        match body with
        | BodyRead.failed msg =>
            (⟨500, Body.err "proxy_error" msg none⟩, cache, some apiKey)
        | BodyRead.ok text =>
            (⟨status, Body.err "api_error" text (some status)⟩, cache, some apiKey)

/-- The `GET /v1/*` handler.  `tLookup` is `Date.now()` at the freshness
check, `tStore` is `Date.now()` at the cache write, `upstream` the outcome
the single fetch would have, `parseJson` the JSON parse of a body text.
The third component records the key an issued fetch carried
(`none` = no upstream call). -/
def handle (parseJson : String → Except String J) (API_KEY : Option String)
    (cache : Cache J) (req : Request) (tLookup tStore : Nat)
    (upstream : FetchOutcome) : Response J × Cache J × Option String :=
  let cacheKey := buildUrl req
  match cacheGet cache cacheKey with
  | some cached =>
    if tLookup - cached.timestamp < CACHE_DURATION then
      (⟨200, Body.json cached.data⟩, cache, none)
    else
      handleMiss parseJson API_KEY cache req cacheKey tStore upstream
  | none => handleMiss parseJson API_KEY cache req cacheKey tStore upstream

/-- Response of the `POST /cache/clear` endpoint,
`res.json({ message: 'Cache cleared', size: 0 })` with the default 200. -/
structure ClearResponse where
  status : Nat
  message : String
  size : Nat
deriving DecidableEq, Repr

/-- The `POST /cache/clear` handler: `cache.clear()` then the fixed body. -/
def cacheClearHandler (_cache : Cache J) : ClearResponse × Cache J :=
  (⟨200, "Cache cleared", 0⟩, ([] : Cache J))

/-- Freshness of the entry under a key at a lookup instant, the guard
`cached && Date.now() - cached.timestamp < CACHE_DURATION` of the source. -/
def hitFresh (cache : Cache J) (k : String) (t : Nat) : Bool :=
  match cacheGet cache k with
  | some cached => decide (t - cached.timestamp < CACHE_DURATION)
  | none => false

/-- Well-formedness of an outbound response: a JSON payload carries
HTTP 200, and an error envelope carries one of the three error kinds. -/
def responseWellFormed (r : Response J) : Prop :=
  match r.body with
  | Body.json _ => r.status = 200
  | Body.err kind _ _ =>
      kind = "missing_api_key" ∨ kind = "api_error" ∨ kind = "proxy_error"

/-! Helper lemmas about the cache store and the handler. -/

theorem cacheGet_cacheSet_self (cache : Cache J) (k : String) (e : CacheEntry J) :
    cacheGet (cacheSet cache k e) k = some e := by
  simp [cacheGet, cacheSet, List.find?]

theorem cacheGet_isSome_iff (cache : Cache J) (k : String) :
    (cacheGet cache k).isSome ↔ ∃ x ∈ cache, x.1 = k := by
  simp [cacheGet, List.find?_isSome]

theorem cacheGet_isSome_cacheSet (cache : Cache J) (k k' : String) (e : CacheEntry J)
    (h : (cacheGet cache k').isSome) : (cacheGet (cacheSet cache k e) k').isSome := by
  rw [cacheGet_isSome_iff] at h
  rw [cacheGet_isSome_iff]
  obtain ⟨x, hx, hxk⟩ := h
  by_cases hk : k' = k
  · exact ⟨(k, e), List.mem_cons_self _ _, hk.symm⟩
  · refine ⟨x, ?_, hxk⟩
    exact List.mem_cons_of_mem _ (List.mem_filter.mpr ⟨hx, by simp [hxk]; exact hk⟩)

/-- A fresh cache entry short-circuits the handler: stored payload, HTTP 200,
cache untouched, no upstream call. -/
theorem handle_hit (pj : String → Except String J) (env : Option String)
    (cache : Cache J) (req : Request) (t t' : Nat) (up : FetchOutcome)
    (e : CacheEntry J) (hg : cacheGet cache (buildUrl req) = some e)
    (hf : t - e.timestamp < CACHE_DURATION) :
    handle pj env cache req t t' up = (⟨200, Body.json e.data⟩, cache, none) := by
  simp only [handle]
  rw [hg]
  simp [hf]

/-- Inversion: a 200 JSON response produced together with an upstream call
can only come from the successful-miss branch, so the resulting cache is the
input cache with the parsed payload stored under the derived key at the
write instant. -/
theorem handle_success_inv (pj : String → Except String J) (env : Option String)
    (cache : Cache J) (req : Request) (t t' : Nat) (up : FetchOutcome)
    (d : J) (c₁ : Cache J) (k : String)
    (h : handle pj env cache req t t' up = (⟨200, Body.json d⟩, c₁, some k)) :
    c₁ = cacheSet cache (buildUrl req) ⟨d, t'⟩ := by
  simp only [handle, handleMiss] at h
  repeat' split at h
  all_goals (try simp_all)
  all_goals
    obtain ⟨h1, h2, h3⟩ := h
    subst h1
    exact h2.symm

/-- On a missing cache entry the handler falls through to the miss path. -/
theorem handle_nohit (pj : String → Except String J) (env : Option String)
    (cache : Cache J) (req : Request) (t t' : Nat) (up : FetchOutcome)
    (hg : cacheGet cache (buildUrl req) = none) :
    handle pj env cache req t t' up = handleMiss pj env cache req (buildUrl req) t' up := by
  simp only [handle]
  rw [hg]

/-- On a stale cache entry the handler falls through to the miss path. -/
theorem handle_stale (pj : String → Except String J) (env : Option String)
    (cache : Cache J) (req : Request) (t t' : Nat) (up : FetchOutcome) (e : CacheEntry J)
    (hg : cacheGet cache (buildUrl req) = some e)
    (hfr : ¬ t - e.timestamp < CACHE_DURATION) :
    handle pj env cache req t t' up = handleMiss pj env cache req (buildUrl req) t' up := by
  simp only [handle]
  rw [hg]
  simp [hfr]

/-- Whenever the freshness guard fails the handler takes the miss path. -/
theorem handle_not_fresh (pj : String → Except String J) (env : Option String)
    (cache : Cache J) (req : Request) (t t' : Nat) (up : FetchOutcome)
    (hm : hitFresh cache (buildUrl req) t = false) :
    handle pj env cache req t t' up = handleMiss pj env cache req (buildUrl req) t' up := by
  unfold hitFresh at hm
  rcases hg : cacheGet cache (buildUrl req) with _ | e
  · exact handle_nohit pj env cache req t t' up hg
  · rw [hg] at hm
    exact handle_stale pj env cache req t t' up e hg (by simpa using hm)

/-- Exhaustive case analysis of the miss path: 401, proxy_error, api_error,
or a successful store. -/
theorem handleMiss_cases (pj : String → Except String J) (env : Option String)
    (cache : Cache J) (req : Request) (cacheKey : String) (t' : Nat) (up : FetchOutcome) :
    (resolveApiKey req.apiKeyHeader env = none ∧
      handleMiss pj env cache req cacheKey t' up =
        (⟨401, Body.err "missing_api_key" "API key required via X-API-Key header or env var" none⟩,
         cache, none)) ∨
    (∃ key msg, resolveApiKey req.apiKeyHeader env = some key ∧
      handleMiss pj env cache req cacheKey t' up =
        (⟨500, Body.err "proxy_error" msg none⟩, cache, some key)) ∨
    (∃ key s text, resolveApiKey req.apiKeyHeader env = some key ∧ statusOk s = false ∧
      up = FetchOutcome.resp s (BodyRead.ok text) ∧
      handleMiss pj env cache req cacheKey t' up =
        (⟨s, Body.err "api_error" text (some s)⟩, cache, some key)) ∨
    (∃ key s text d, resolveApiKey req.apiKeyHeader env = some key ∧ statusOk s = true ∧
      up = FetchOutcome.resp s (BodyRead.ok text) ∧ pj text = Except.ok d ∧
      handleMiss pj env cache req cacheKey t' up =
        (⟨200, Body.json d⟩, cacheSet cache cacheKey ⟨d, t'⟩, some key)) := by
  unfold handleMiss
  rcases hr : resolveApiKey req.apiKeyHeader env with _ | key
  · exact Or.inl ⟨rfl, rfl⟩
  · rcases up with msg | ⟨s, body⟩
    · exact Or.inr (Or.inl ⟨key, msg, rfl, rfl⟩)
    · dsimp only
      by_cases hs : statusOk s = true
      · rw [if_pos hs]
        rcases body with text | msg
        · dsimp only
          rcases hp : pj text with msg | d
          · exact Or.inr (Or.inl ⟨key, msg, rfl, rfl⟩)
          · exact Or.inr (Or.inr (Or.inr ⟨key, s, text, d, rfl, hs, rfl, hp, rfl⟩))
        · exact Or.inr (Or.inl ⟨key, msg, rfl, rfl⟩)
      · rw [if_neg hs]
        rcases body with text | msg
        · exact Or.inr (Or.inr (Or.inl ⟨key, s, text, rfl, by simpa using hs, rfl, rfl⟩))
        · exact Or.inr (Or.inl ⟨key, msg, rfl, rfl⟩)

/-- Exhaustive case analysis of the whole handler: fresh hit, 401,
proxy_error, api_error, or a successful store. -/
theorem handle_cases (pj : String → Except String J) (env : Option String)
    (cache : Cache J) (req : Request) (t t' : Nat) (up : FetchOutcome) :
    (∃ e, cacheGet cache (buildUrl req) = some e ∧ t - e.timestamp < CACHE_DURATION ∧
      handle pj env cache req t t' up = (⟨200, Body.json e.data⟩, cache, none)) ∨
    (hitFresh cache (buildUrl req) t = false ∧ resolveApiKey req.apiKeyHeader env = none ∧
      handle pj env cache req t t' up =
        (⟨401, Body.err "missing_api_key" "API key required via X-API-Key header or env var" none⟩,
         cache, none)) ∨
    (∃ key msg, hitFresh cache (buildUrl req) t = false ∧
      resolveApiKey req.apiKeyHeader env = some key ∧
      handle pj env cache req t t' up =
        (⟨500, Body.err "proxy_error" msg none⟩, cache, some key)) ∨
    (∃ key s text, hitFresh cache (buildUrl req) t = false ∧
      resolveApiKey req.apiKeyHeader env = some key ∧ statusOk s = false ∧
      up = FetchOutcome.resp s (BodyRead.ok text) ∧
      handle pj env cache req t t' up =
        (⟨s, Body.err "api_error" text (some s)⟩, cache, some key)) ∨
    (∃ key s text d, hitFresh cache (buildUrl req) t = false ∧
      resolveApiKey req.apiKeyHeader env = some key ∧ statusOk s = true ∧
      up = FetchOutcome.resp s (BodyRead.ok text) ∧ pj text = Except.ok d ∧
      handle pj env cache req t t' up =
        (⟨200, Body.json d⟩, cacheSet cache (buildUrl req) ⟨d, t'⟩, some key)) := by
  by_cases hfr : hitFresh cache (buildUrl req) t = true
  · unfold hitFresh at hfr
    rcases hg : cacheGet cache (buildUrl req) with _ | e
    · rw [hg] at hfr
      exact absurd hfr (by simp)
    · rw [hg] at hfr
      have hf : t - e.timestamp < CACHE_DURATION := by simpa using hfr
      exact Or.inl ⟨e, rfl, hf, handle_hit pj env cache req t t' up e hg hf⟩
  · have hm : hitFresh cache (buildUrl req) t = false := by simpa using hfr
    have heq := handle_not_fresh pj env cache req t t' up hm
    rcases handleMiss_cases pj env cache req (buildUrl req) t' up with
      ⟨h1, h2⟩ | ⟨key, msg, h1, h2⟩ | ⟨key, s, text, h1, hs, hup, h2⟩ |
      ⟨key, s, text, d, h1, hs, hup, hp, h2⟩
    · exact Or.inr (Or.inl ⟨hm, h1, heq.trans h2⟩)
    · exact Or.inr (Or.inr (Or.inl ⟨key, msg, hm, h1, heq.trans h2⟩))
    · exact Or.inr (Or.inr (Or.inr (Or.inl ⟨key, s, text, hm, h1, hs, hup, heq.trans h2⟩)))
    · exact Or.inr (Or.inr (Or.inr (Or.inr
        ⟨key, s, text, d, hm, h1, hs, hup, hp, heq.trans h2⟩)))

/-- C1: a GET whose derived cache key holds an entry stored less than
CACHE_DURATION (60000 ms) ago is answered with the stored payload as HTTP
200 and no upstream call; and after a successful cache miss, a second
identical request within the TTL of the write instant returns the identical
payload, again with no upstream call. -/
theorem claim_C1 (pj pj₂ : String → Except String J) (env env₂ : Option String)
    (cache : Cache J) (req : Request) (t t' t₂ t₂' : Nat) (up up₂ : FetchOutcome) :
    (∀ e, cacheGet cache (buildUrl req) = some e → t - e.timestamp < CACHE_DURATION →
      handle pj env cache req t t' up = (⟨200, Body.json e.data⟩, cache, none)) ∧
    (∀ d c₁ k, handle pj env cache req t t' up = (⟨200, Body.json d⟩, c₁, some k) →
      t₂ - t' < CACHE_DURATION →
      handle pj₂ env₂ c₁ req t₂ t₂' up₂ = (⟨200, Body.json d⟩, c₁, none)) := by
  constructor
  · intro e hg hf
    exact handle_hit pj env cache req t t' up e hg hf
  · intro d c₁ k h1 hf
    have hc := handle_success_inv pj env cache req t t' up d c₁ k h1
    subst hc
    exact handle_hit pj₂ env₂ _ req t₂ t₂' up₂ ⟨d, t'⟩
      (cacheGet_cacheSet_self cache (buildUrl req) ⟨d, t'⟩) hf

/-- Witness for C1 at concrete inputs: a fresh hit is served from the cache,
and a repeat of a just-stored request is served from the cache. -/
theorem claim_C1_witness :
    handle (J := Nat) (fun s => Except.ok s.length) (some "k")
        [("https://api.oddsengine.dev/v1/x", ⟨9, 100⟩)] ⟨"/v1/x", [], none⟩ 150 0
        (FetchOutcome.netError "e") =
      (⟨200, Body.json 9⟩, [("https://api.oddsengine.dev/v1/x", ⟨9, 100⟩)], none) ∧
    handle (J := Nat) (fun s => Except.error s) none
        [("https://api.oddsengine.dev/v1/x", ⟨2, 500⟩)] ⟨"/v1/x", [], none⟩ 600 0
        (FetchOutcome.netError "e") =
      (⟨200, Body.json 2⟩, [("https://api.oddsengine.dev/v1/x", ⟨2, 500⟩)], none) := by
  constructor
  · exact (claim_C1 (fun s => Except.ok s.length) (fun s => Except.ok s.length)
      (some "k") (some "k") [("https://api.oddsengine.dev/v1/x", ⟨9, 100⟩)]
      ⟨"/v1/x", [], none⟩ 150 0 0 0 (FetchOutcome.netError "e")
      (FetchOutcome.netError "e")).1 ⟨9, 100⟩ (by decide) (by decide)
  · exact (claim_C1 (fun s => Except.ok s.length) (fun s => Except.error s)
      (some "k") none [] ⟨"/v1/x", [], none⟩ 0 500 600 0
      (FetchOutcome.resp 200 (BodyRead.ok "ab")) (FetchOutcome.netError "e")).2
      2 [("https://api.oddsengine.dev/v1/x", ⟨2, 500⟩)] "k" (by decide) (by decide)

/-- C2 counterexample: a request with no X-API-Key header and no configured
key is NOT answered 401 when the derived cache key holds a fresh entry — the
cache hit is served before the credential check, so the response is HTTP 200
with the stored payload. -/
theorem claim_C2_counterexample :
    handle (J := Nat) (fun s => Except.error s) none
        [("https://api.oddsengine.dev/v1/events", ⟨7, 0⟩)] ⟨"/v1/events", [], none⟩ 10 0
        (FetchOutcome.netError "down") =
      (⟨200, Body.json 7⟩, [("https://api.oddsengine.dev/v1/events", ⟨7, 0⟩)], none) ∧
    (200 : Nat) ≠ 401 := by decide

/-- C2 (amended): a GET with no X-API-Key header, no configured key, and no
fresh cache entry for its derived key is answered HTTP 401 with error kind
missing_api_key, the cache unchanged and no upstream call. -/
theorem claim_C2 (pj : String → Except String J) (env : Option String) (cache : Cache J)
    (req : Request) (t t' : Nat) (up : FetchOutcome)
    (hh : req.apiKeyHeader = none) (he : env = none)
    (hm : hitFresh cache (buildUrl req) t = false) :
    handle pj env cache req t t' up =
      (⟨401, Body.err "missing_api_key" "API key required via X-API-Key header or env var" none⟩,
       cache, none) := by
  subst he
  have hk : resolveApiKey req.apiKeyHeader none = none := by rw [hh]; rfl
  simp only [handle]
  rcases hg : cacheGet cache (buildUrl req) with _ | e
  · simp only [handleMiss, hk]
  · have hst : ¬ (t - e.timestamp < CACHE_DURATION) := by
      unfold hitFresh at hm
      rw [hg] at hm
      simpa using hm
    simp only [handleMiss, hk, if_neg hst]

/-- Witness for C2 at a concrete input: empty cache, no header, no key. -/
theorem claim_C2_witness :
    handle (J := Nat) (fun s => Except.error s) none [] ⟨"/v1/events", [], none⟩ 0 0
        (FetchOutcome.netError "down") =
      (⟨401, Body.err "missing_api_key" "API key required via X-API-Key header or env var" none⟩,
       [], none) := by
  exact claim_C2 (fun s => Except.error s) none [] ⟨"/v1/events", [], none⟩ 0 0
    (FetchOutcome.netError "down") (by decide) rfl (by decide)

/-- C3: the cache is mutated only by a successful miss, which writes exactly
the parsed payload under the derived key at the write instant; every error
outcome (401, api_error, proxy_error) and every hit leaves it unchanged. -/
theorem claim_C3 (pj : String → Except String J) (env : Option String) (cache : Cache J)
    (req : Request) (t t' : Nat) (up : FetchOutcome) :
    (∀ kind m so, (handle pj env cache req t t' up).1.body = Body.err kind m so →
      (handle pj env cache req t t' up).2.1 = cache) ∧
    (∀ d, (handle pj env cache req t t' up).1.body = Body.json d →
      (handle pj env cache req t t' up).2.2 ≠ none →
      (handle pj env cache req t t' up).2.1 = cacheSet cache (buildUrl req) ⟨d, t'⟩) ∧
    (∀ d, (handle pj env cache req t t' up).1.body = Body.json d →
      (handle pj env cache req t t' up).2.2 = none →
      (handle pj env cache req t t' up).2.1 = cache) := by
  refine ⟨fun kind m so hb => ?_, fun d hb hcall => ?_, fun d hb hcall => ?_⟩ <;>
    rcases handle_cases pj env cache req t t' up with
      ⟨e, hg, hf, hE⟩ | ⟨hm, h1, hE⟩ | ⟨key, msg, hm, h1, hE⟩ |
      ⟨key, s, text, hm, h1, hs, hup, hE⟩ | ⟨key, s, text, d2, hm, h1, hs, hup, hp, hE⟩ <;>
    simp_all

/-- Witness for C3 at concrete inputs: a successful miss stores one entry,
a 401 and a hit leave the cache unchanged. -/
theorem claim_C3_witness :
    (handle (J := Nat) (fun s => Except.ok s.length) (some "k") [] ⟨"/v1/e", [], none⟩ 0 7
        (FetchOutcome.resp 200 (BodyRead.ok "abc"))).2.1 =
      cacheSet [] (buildUrl ⟨"/v1/e", [], none⟩) ⟨3, 7⟩ ∧
    (handle (J := Nat) (fun s => Except.error s) none [] ⟨"/v1/e", [], none⟩ 0 0
        (FetchOutcome.netError "x")).2.1 = [] ∧
    (handle (J := Nat) (fun s => Except.error s) none
        [("https://api.oddsengine.dev/v1/e", ⟨5, 0⟩)] ⟨"/v1/e", [], none⟩ 0 0
        (FetchOutcome.netError "x")).2.1 =
      [("https://api.oddsengine.dev/v1/e", ⟨5, 0⟩)] := by
  refine ⟨?_, ?_, ?_⟩
  · exact (claim_C3 (fun s => Except.ok s.length) (some "k") [] ⟨"/v1/e", [], none⟩ 0 7
      (FetchOutcome.resp 200 (BodyRead.ok "abc"))).2.1 3 (by decide) (by decide)
  · exact (claim_C3 (fun s => Except.error s) none [] ⟨"/v1/e", [], none⟩ 0 0
      (FetchOutcome.netError "x")).1 "missing_api_key"
      "API key required via X-API-Key header or env var" none (by decide)
  · exact (claim_C3 (fun s => Except.error s) none
      [("https://api.oddsengine.dev/v1/e", ⟨5, 0⟩)] ⟨"/v1/e", [], none⟩ 0 0
      (FetchOutcome.netError "x")).2.2 5 (by decide) (by decide)

/-- C4: the TTL constant is 60000 ms; an entry is fresh iff lookup time
minus its stored timestamp is strictly below it; handling never evicts a
resident key (stale entries stay until overwritten); an upstream call is
made exactly when there is no fresh entry and a key resolves; and a repeat
of a stored request after more than the TTL triggers a new upstream call. -/
theorem claim_C4 (pj pj₂ : String → Except String J) (env env₂ : Option String)
    (cache : Cache J) (req : Request) (t t' t₂ t₂' : Nat) (up up₂ : FetchOutcome) :
    CACHE_DURATION = 60000 ∧
    (∀ e, cacheGet cache (buildUrl req) = some e →
      (hitFresh cache (buildUrl req) t = true ↔ t - e.timestamp < CACHE_DURATION)) ∧
    (∀ k, (cacheGet cache k).isSome →
      (cacheGet (handle pj env cache req t t' up).2.1 k).isSome) ∧
    ((handle pj env cache req t t' up).2.2 ≠ none ↔
      (hitFresh cache (buildUrl req) t = false ∧
       resolveApiKey req.apiKeyHeader env ≠ none)) ∧
    (∀ d c₁ kk, handle pj env cache req t t' up = (⟨200, Body.json d⟩, c₁, some kk) →
      CACHE_DURATION < t₂ - t' → resolveApiKey req.apiKeyHeader env₂ ≠ none →
      (handle pj₂ env₂ c₁ req t₂ t₂' up₂).2.2 ≠ none) := by
  refine ⟨rfl, fun e hg => ?_, fun k hk => ?_, ?_, fun d c₁ kk h1 hgt hres => ?_⟩
  · unfold hitFresh
    rw [hg]
    simp
  · rcases handle_cases pj env cache req t t' up with
      ⟨e, hg, hf, hE⟩ | ⟨hm, h1, hE⟩ | ⟨key, msg, hm, h1, hE⟩ |
      ⟨key, s, text, hm, h1, hs, hup, hE⟩ | ⟨key, s, text, d, hm, h1, hs, hup, hp, hE⟩
    · rw [hE]; exact hk
    · rw [hE]; exact hk
    · rw [hE]; exact hk
    · rw [hE]; exact hk
    · rw [hE]; exact cacheGet_isSome_cacheSet cache (buildUrl req) k ⟨d, t'⟩ hk
  · rcases handle_cases pj env cache req t t' up with
      ⟨e, hg, hf, hE⟩ | ⟨hm, h1, hE⟩ | ⟨key, msg, hm, h1, hE⟩ |
      ⟨key, s, text, hm, h1, hs, hup, hE⟩ | ⟨key, s, text, d, hm, h1, hs, hup, hp, hE⟩
    · have hfT : hitFresh cache (buildUrl req) t = true := by
        unfold hitFresh
        rw [hg]
        simp [hf]
      simp [hE, hfT]
    · simp [hE, h1]
    · simp [hE, hm, h1]
    · simp [hE, hm, h1]
    · simp [hE, hm, h1]
  · have hc := handle_success_inv pj env cache req t t' up d c₁ kk h1
    subst hc
    have hg₂ : cacheGet (cacheSet cache (buildUrl req) ⟨d, t'⟩) (buildUrl req) =
        some ⟨d, t'⟩ := cacheGet_cacheSet_self cache (buildUrl req) ⟨d, t'⟩
    have hst : ¬ t₂ - (⟨d, t'⟩ : CacheEntry J).timestamp < CACHE_DURATION := by
      simp only
      omega
    rw [handle_stale pj₂ env₂ _ req t₂ t₂' up₂ ⟨d, t'⟩ hg₂ hst]
    rcases handleMiss_cases pj₂ env₂ (cacheSet cache (buildUrl req) ⟨d, t'⟩) req
        (buildUrl req) t₂' up₂ with
      ⟨h1', h2⟩ | ⟨key, msg, h1', h2⟩ | ⟨key, s, text, h1', hs, hup, h2⟩ |
      ⟨key, s, text, dd, h1', hs, hup, hp, h2⟩
    · exact absurd h1' hres
    · simp [h2]
    · simp [h2]
    · simp [h2]

/-- Witness for C4 at concrete inputs: the freshness criterion on a stored
entry, key preservation across a successful store, and a refetch 70000 ms
after a store. -/
theorem claim_C4_witness :
    (hitFresh (J := Nat) [("https://api.oddsengine.dev/v1/e", ⟨2, 0⟩)]
        (buildUrl ⟨"/v1/e", [], some "h"⟩) 10 = true ↔ 10 - 0 < CACHE_DURATION) ∧
    (cacheGet (handle (J := Nat) (fun s => Except.error s) (some "k2")
        [("https://api.oddsengine.dev/v1/e", ⟨2, 0⟩)] ⟨"/v1/e", [], some "h"⟩ 70000 70001
        (FetchOutcome.netError "x")).2.1 "https://api.oddsengine.dev/v1/e").isSome = true ∧
    (handle (J := Nat) (fun s => Except.error s) (some "k2")
        [("https://api.oddsengine.dev/v1/e", ⟨2, 0⟩)] ⟨"/v1/e", [], some "h"⟩ 70000 70001
        (FetchOutcome.netError "x")).2.2 ≠ none := by
  refine ⟨?_, ?_, ?_⟩
  · exact (claim_C4 (fun s => Except.ok s.length) (fun s => Except.ok s.length) none none
      [("https://api.oddsengine.dev/v1/e", ⟨2, 0⟩)] ⟨"/v1/e", [], some "h"⟩ 10 0 0 0
      (FetchOutcome.netError "x") (FetchOutcome.netError "x")).2.1 ⟨2, 0⟩ (by decide)
  · exact (claim_C4 (fun s => Except.error s) (fun s => Except.error s) (some "k2")
      (some "k2") [("https://api.oddsengine.dev/v1/e", ⟨2, 0⟩)] ⟨"/v1/e", [], some "h"⟩
      70000 70001 0 0 (FetchOutcome.netError "x") (FetchOutcome.netError "x")).2.2.1
      "https://api.oddsengine.dev/v1/e" (by decide)
  · exact (claim_C4 (fun s => Except.ok s.length) (fun s => Except.error s) none (some "k2")
      [] ⟨"/v1/e", [], some "h"⟩ 0 0 70000 70001
      (FetchOutcome.resp 200 (BodyRead.ok "ab")) (FetchOutcome.netError "x")).2.2.2.2
      2 [("https://api.oddsengine.dev/v1/e", ⟨2, 0⟩)] "h" (by decide) (by decide) (by decide)

/-- C5 counterexample: the claim also asserts that a failed read of a
non-2xx upstream body yields the upstream status with an empty api_error
message; the code instead lets the read failure propagate to the catch
block, producing HTTP 500 proxy_error with the failure message. -/
theorem claim_C5_counterexample :
    handle (J := Nat) (fun s => Except.error s) (some "k") [] ⟨"/v1/odds", [], none⟩ 0 0
        (FetchOutcome.resp 429 (BodyRead.failed "read error")) =
      (⟨500, Body.err "proxy_error" "read error" none⟩, [], some "k") ∧
    (500 : Nat) ≠ 429 := by decide

/-- C5 (amended): a non-2xx upstream response whose body text is read
successfully is returned, without retry, with the same HTTP status and the
api_error envelope carrying the upstream body text and the status field,
the cache unchanged; a failed body read instead yields HTTP 500
proxy_error. -/
theorem claim_C5 (pj : String → Except String J) (env : Option String) (cache : Cache J)
    (req : Request) (t t' s : Nat) (text key : String)
    (hs : statusOk s = false)
    (hkey : resolveApiKey req.apiKeyHeader env = some key)
    (hm : hitFresh cache (buildUrl req) t = false) :
    handle pj env cache req t t' (FetchOutcome.resp s (BodyRead.ok text)) =
      (⟨s, Body.err "api_error" text (some s)⟩, cache, some key) := by
  rw [handle_not_fresh pj env cache req t t' (FetchOutcome.resp s (BodyRead.ok text)) hm]
  unfold handleMiss
  rw [hkey]
  dsimp only
  rw [if_neg (by simp [hs])]

/-- Witness for C5 at a concrete input: upstream HTTP 429 with body text
containing retry_after is passed through unmodified as api_error 429. -/
theorem claim_C5_witness :
    handle (J := Nat) (fun s => Except.error s) (some "k") [] ⟨"/v1/odds", [], none⟩ 5 5
        (FetchOutcome.resp 429 (BodyRead.ok "\x7b\"retry_after\":5\x7d")) =
      (⟨429, Body.err "api_error" "\x7b\"retry_after\":5\x7d" (some 429)⟩, [], some "k") := by
  exact claim_C5 (fun s => Except.error s) (some "k") [] ⟨"/v1/odds", [], none⟩ 5 5 429
    "\x7b\"retry_after\":5\x7d" "k" (by decide) (by decide) (by decide)

/-- C6: a network error, a failed body read, and a 2xx body that fails to
parse as JSON are each caught and converted into HTTP 500 proxy_error
carrying the failure message, with the cache unchanged; and every inbound
request terminates with a well-formed response (a 200 JSON payload or an
envelope with one of the three error kinds). -/
theorem claim_C6 (pj : String → Except String J) (env : Option String) (cache : Cache J)
    (req : Request) (t t' : Nat) :
    (∀ key msg, resolveApiKey req.apiKeyHeader env = some key →
      hitFresh cache (buildUrl req) t = false →
      handle pj env cache req t t' (FetchOutcome.netError msg) =
        (⟨500, Body.err "proxy_error" msg none⟩, cache, some key)) ∧
    (∀ key s msg, resolveApiKey req.apiKeyHeader env = some key →
      hitFresh cache (buildUrl req) t = false →
      handle pj env cache req t t' (FetchOutcome.resp s (BodyRead.failed msg)) =
        (⟨500, Body.err "proxy_error" msg none⟩, cache, some key)) ∧
    (∀ key s text msg, resolveApiKey req.apiKeyHeader env = some key →
      hitFresh cache (buildUrl req) t = false → statusOk s = true →
      pj text = Except.error msg →
      handle pj env cache req t t' (FetchOutcome.resp s (BodyRead.ok text)) =
        (⟨500, Body.err "proxy_error" msg none⟩, cache, some key)) ∧
    (∀ up, responseWellFormed (handle pj env cache req t t' up).1) := by
  refine ⟨fun key msg hkey hm => ?_, fun key s msg hkey hm => ?_,
    fun key s text msg hkey hm hs hp => ?_, fun up => ?_⟩
  · rw [handle_not_fresh pj env cache req t t' (FetchOutcome.netError msg) hm]
    unfold handleMiss
    rw [hkey]
  · rw [handle_not_fresh pj env cache req t t' (FetchOutcome.resp s (BodyRead.failed msg)) hm]
    simp only [handleMiss, hkey, ite_self]
  · rw [handle_not_fresh pj env cache req t t' (FetchOutcome.resp s (BodyRead.ok text)) hm]
    simp [handleMiss, hkey, hs, hp]
  · rcases handle_cases pj env cache req t t' up with
      ⟨e, hg, hf, hE⟩ | ⟨hm, h1, hE⟩ | ⟨key, msg, hm, h1, hE⟩ |
      ⟨key, s, text, hm, h1, hs, hup, hE⟩ | ⟨key, s, text, d, hm, h1, hs, hup, hp, hE⟩ <;>
    simp [hE, responseWellFormed]

/-- Witness for C6 at concrete inputs: network error, body-read failure and
parse failure each yield 500 proxy_error; a 401 response is well-formed. -/
theorem claim_C6_witness :
    handle (J := Nat) (fun s => Except.error s) (some "k") [] ⟨"/v1/e", [], none⟩ 0 0
        (FetchOutcome.netError "connect ECONNREFUSED") =
      (⟨500, Body.err "proxy_error" "connect ECONNREFUSED" none⟩, [], some "k") ∧
    handle (J := Nat) (fun s => Except.error s) (some "k") [] ⟨"/v1/e", [], none⟩ 0 0
        (FetchOutcome.resp 200 (BodyRead.failed "aborted")) =
      (⟨500, Body.err "proxy_error" "aborted" none⟩, [], some "k") ∧
    handle (J := Nat) (fun s => Except.error s) (some "k") [] ⟨"/v1/e", [], none⟩ 0 0
        (FetchOutcome.resp 200 (BodyRead.ok "not json")) =
      (⟨500, Body.err "proxy_error" "not json" none⟩, [], some "k") ∧
    responseWellFormed (handle (J := Nat) (fun s => Except.error s) none [] ⟨"/v1/e", [], none⟩
        0 0 (FetchOutcome.netError "x")).1 := by
  refine ⟨?_, ?_, ?_, ?_⟩
  · exact (claim_C6 (fun s => Except.error s) (some "k") [] ⟨"/v1/e", [], none⟩ 0 0).1
      "k" "connect ECONNREFUSED" (by decide) (by decide)
  · exact (claim_C6 (fun s => Except.error s) (some "k") [] ⟨"/v1/e", [], none⟩ 0 0).2.1
      "k" 200 "aborted" (by decide) (by decide)
  · exact (claim_C6 (fun s => Except.error s) (some "k") [] ⟨"/v1/e", [], none⟩ 0 0).2.2.1
      "k" 200 "not json" "not json" (by decide) (by decide) (by decide) rfl
  · exact (claim_C6 (fun s => Except.error s) none [] ⟨"/v1/e", [], none⟩ 0 0).2.2.2
      (FetchOutcome.netError "x")

/-- C7 counterexample: a request that carries the X-API-Key header with an
empty value does not have the upstream call issued with that value — the JS
or-operator treats the empty string as absent, so the environment key is
used instead. -/
theorem claim_C7_counterexample :
    (handle (J := Nat) (fun _ => Except.ok 1) (some "envkey") [] ⟨"/v1/events", [], some ""⟩
        0 0 (FetchOutcome.resp 200 (BodyRead.ok "x"))).2.2 = some "envkey" ∧
    some "envkey" ≠ some "" := by decide

/-- C7 (amended): every upstream call is issued with the resolved key; a
nonempty header value overrides the configured key; with the header absent a
nonempty configured key is used; and an empty header value resolves exactly
as an absent header (it does not override). -/
theorem claim_C7 (pj : String → Except String J) (env : Option String) (cache : Cache J)
    (req : Request) (t t' : Nat) (up : FetchOutcome) :
    (∀ k, (handle pj env cache req t t' up).2.2 = some k →
      resolveApiKey req.apiKeyHeader env = some k) ∧
    (∀ h, h ≠ "" → resolveApiKey (some h) env = some h) ∧
    (∀ e, e ≠ "" → resolveApiKey none (some e) = some e) ∧
    (∀ e', resolveApiKey (some "") e' = resolveApiKey none e') := by
  refine ⟨fun k hcall => ?_, fun h hne => ?_, fun e hne => ?_, fun e' => ?_⟩
  · rcases handle_cases pj env cache req t t' up with
      ⟨e, hg, hf, hE⟩ | ⟨hm, h1, hE⟩ | ⟨key, msg, hm, h1, hE⟩ |
      ⟨key, s, text, hm, h1, hs, hup, hE⟩ | ⟨key, s, text, d, hm, h1, hs, hup, hp, hE⟩ <;>
    simp_all
  · simp [resolveApiKey, jsOr, truthy, hne]
  · simp [resolveApiKey, jsOr, truthy, hne]
  · simp [resolveApiKey, jsOr, truthy]

/-- Witness for C7 at concrete inputs: a call issued with the header key
resolves to it, a nonempty header overrides, the environment key backs an
absent header, and an empty header falls back. -/
theorem claim_C7_witness :
    resolveApiKey (some "hdr") (some "envkey") = some "hdr" ∧
    resolveApiKey (some "hdr2") (some "envkey") = some "hdr2" ∧
    resolveApiKey none (some "envkey") = some "envkey" ∧
    resolveApiKey (some "") (some "envkey") = resolveApiKey none (some "envkey") := by
  refine ⟨?_, ?_, ?_, ?_⟩
  · exact (claim_C7 (J := Nat) (fun s => Except.error s) (some "envkey") []
      ⟨"/v1/e", [], some "hdr"⟩ 0 0 (FetchOutcome.netError "x")).1 "hdr" (by decide)
  · exact (claim_C7 (J := Nat) (fun s => Except.error s) (some "envkey") []
      ⟨"/v1/e", [], some "hdr2"⟩ 0 0 (FetchOutcome.netError "x")).2.1 "hdr2" (by decide)
  · exact (claim_C7 (J := Nat) (fun s => Except.error s) (some "envkey") []
      ⟨"/v1/e", [], none⟩ 0 0 (FetchOutcome.netError "x")).2.2.1 "envkey" (by decide)
  · exact (claim_C7 (J := Nat) (fun s => Except.error s) (some "envkey") []
      ⟨"/v1/e", [], some ""⟩ 0 0 (FetchOutcome.netError "x")).2.2.2 (some "envkey")

/-- C9: clearing empties the store (resulting size zero) and responds 200
with a size field of 0; any request handled against the cleared store for
which a key resolves issues an upstream call (a cache miss). -/
theorem claim_C9 (cache : Cache J) (pj : String → Except String J) (env : Option String)
    (req : Request) (t t' : Nat) (up : FetchOutcome) :
    cacheClearHandler cache = (⟨200, "Cache cleared", 0⟩, ([] : Cache J)) ∧
    (cacheClearHandler cache).2.length = 0 ∧
    (∀ key, resolveApiKey req.apiKeyHeader env = some key →
      (handle pj env (cacheClearHandler cache).2 req t t' up).2.2 = some key) := by
  refine ⟨rfl, rfl, fun key hk => ?_⟩
  have hg : cacheGet (J := J) [] (buildUrl req) = none := rfl
  show (handle pj env [] req t t' up).2.2 = some key
  rw [handle_nohit pj env [] req t t' up hg]
  rcases handleMiss_cases pj env [] req (buildUrl req) t' up with
    ⟨h1, h2⟩ | ⟨key', msg, h1, h2⟩ | ⟨key', s, text, h1, hs, hup, h2⟩ |
    ⟨key', s, text, d, h1, hs, hup, hp, h2⟩
  · rw [hk] at h1
    exact absurd h1 (by simp)
  · have hkk : key' = key := Option.some.inj (h1.symm.trans hk)
    rw [h2, hkk]
  · have hkk : key' = key := Option.some.inj (h1.symm.trans hk)
    rw [h2, hkk]
  · have hkk : key' = key := Option.some.inj (h1.symm.trans hk)
    rw [h2, hkk]

/-- Witness for C9 at concrete inputs: clearing a one-entry cache, then
repeating the previously cached request, reaches upstream again. -/
theorem claim_C9_witness :
    cacheClearHandler (J := Nat) [("https://api.oddsengine.dev/v1/e", ⟨5, 0⟩)] =
      (⟨200, "Cache cleared", 0⟩, []) ∧
    (handle (J := Nat) (fun s => Except.ok s.length) (some "k")
        (cacheClearHandler (J := Nat) [("https://api.oddsengine.dev/v1/e", ⟨5, 0⟩)]).2
        ⟨"/v1/e", [], none⟩ 1 1 (FetchOutcome.resp 200 (BodyRead.ok "xy"))).2.2 =
      some "k" := by
  constructor
  · exact (claim_C9 [("https://api.oddsengine.dev/v1/e", ⟨5, 0⟩)]
      (fun s => Except.ok s.length) (some "k") ⟨"/v1/e", [], none⟩ 1 1
      (FetchOutcome.resp 200 (BodyRead.ok "xy"))).1
  · exact (claim_C9 [("https://api.oddsengine.dev/v1/e", ⟨5, 0⟩)]
      (fun s => Except.ok s.length) (some "k") ⟨"/v1/e", [], none⟩ 1 1
      (FetchOutcome.resp 200 (BodyRead.ok "xy"))).2.2 "k" (by decide)

/-- C10: when the derived cache key holds a fresh entry, the response does
not depend on the X-API-Key header: two requests identical but for that
header (one may be headerless with no configured key) both receive the
stored payload with HTTP 200, with no upstream call and the credential check
never reached. -/
theorem claim_C10 (pj₁ pj₂ : String → Except String J) (env₁ env₂ : Option String)
    (cache : Cache J) (p : String) (q : List (String × String)) (h₁ h₂ : Option String)
    (t t₁' t₂' : Nat) (up₁ up₂ : FetchOutcome) (e : CacheEntry J)
    (hg : cacheGet cache (buildUrl ⟨p, q, h₁⟩) = some e)
    (hf : t - e.timestamp < CACHE_DURATION) :
    handle pj₁ env₁ cache ⟨p, q, h₁⟩ t t₁' up₁ = (⟨200, Body.json e.data⟩, cache, none) ∧
    handle pj₂ env₂ cache ⟨p, q, h₂⟩ t t₂' up₂ = (⟨200, Body.json e.data⟩, cache, none) := by
  have hg₂ : cacheGet cache (buildUrl ⟨p, q, h₂⟩) = some e := hg
  exact ⟨handle_hit pj₁ env₁ cache ⟨p, q, h₁⟩ t t₁' up₁ e hg hf,
         handle_hit pj₂ env₂ cache ⟨p, q, h₂⟩ t t₂' up₂ e hg₂ hf⟩

/-- Witness for C10 at concrete inputs: a headerless keyless request and a
headered request with different parse and upstream oracles get the same
cached answer. -/
theorem claim_C10_witness :
    handle (J := Nat) (fun s => Except.error s) none
        [("https://api.oddsengine.dev/v1/odds", ⟨3, 40⟩)] ⟨"/v1/odds", [], none⟩ 50 0
        (FetchOutcome.netError "down") =
      (⟨200, Body.json 3⟩, [("https://api.oddsengine.dev/v1/odds", ⟨3, 40⟩)], none) ∧
    handle (J := Nat) (fun s => Except.ok s.length) (some "envkey")
        [("https://api.oddsengine.dev/v1/odds", ⟨3, 40⟩)] ⟨"/v1/odds", [], some "hdr"⟩ 50 9
        (FetchOutcome.resp 200 (BodyRead.ok "zz")) =
      (⟨200, Body.json 3⟩, [("https://api.oddsengine.dev/v1/odds", ⟨3, 40⟩)], none) := by
  exact claim_C10 (fun s => Except.error s) (fun s => Except.ok s.length) none (some "envkey")
    [("https://api.oddsengine.dev/v1/odds", ⟨3, 40⟩)] "/v1/odds" [] none (some "hdr") 50 0 9
    (FetchOutcome.netError "down") (FetchOutcome.resp 200 (BodyRead.ok "zz")) ⟨3, 40⟩
    (by decide) (by decide)

/-! Injectivity of the query-string serializer, leading to claim C8: the
derived upstream URL determines the inbound path and query exactly. -/

theorem char_toNat_lt (c : Char) : c.toNat < 1114112 := by
  rcases c.valid with h | ⟨h1, h2⟩
  · have := UInt32.toNat_lt_of_lt (n := c.val) (m := 55296) (by decide) h
    show c.val.toNat < 1114112
    omega
  · have := UInt32.toNat_lt_of_lt (n := c.val) (m := 1114112) (by decide) h2
    exact this

theorem char_toNat_inj (c c' : Char) (h : c.toNat = c'.toNat) : c = c' := by
  have := Char.ofNat_toNat c
  rw [h, Char.ofNat_toNat] at this
  exact this.symm

theorem hexDigit_inj_fin (a b : Fin 16) (h : hexDigit a.val = hexDigit b.val) : a = b := by
  revert h
  revert a b
  decide

theorem hexDigit_inj (a b : Nat) (ha : a < 16) (hb : b < 16) (h : hexDigit a = hexDigit b) :
    a = b := by
  have := hexDigit_inj_fin ⟨a, ha⟩ ⟨b, hb⟩ h
  exact congrArg Fin.val this

theorem allowedChar_hexDigit (m : Nat) (hm : m < 16) : allowedChar (hexDigit m) = true := by
  have : ∀ a : Fin 16, allowedChar (hexDigit a.val) = true := by decide
  exact this ⟨m, hm⟩

theorem pctByte_inj (b b' : Nat) (hb : b < 256) (hb' : b' < 256) (h : pctByte b = pctByte b') :
    b = b' := by
  simp only [pctByte, List.cons.injEq, and_true] at h
  obtain ⟨-, h1, h2⟩ := h
  have e1 := hexDigit_inj (b / 16) (b' / 16) (by omega) (by omega) h1
  have e2 := hexDigit_inj (b % 16) (b' % 16) (by omega) (by omega) h2
  omega

theorem utf8Bytes_cons (c : Char) : ∃ b bs, utf8Bytes c = b :: bs := by
  unfold utf8Bytes
  dsimp only
  split_ifs <;> exact ⟨_, _, rfl⟩

theorem utf8Bytes_lt (c : Char) : ∀ b ∈ utf8Bytes c, b < 256 := by
  have hv := char_toNat_lt c
  unfold utf8Bytes
  dsimp only
  split_ifs with h1 h2 h3 <;> intro b hb <;> simp only [List.mem_cons,
    List.not_mem_nil, or_false] at hb
  · omega
  · rcases hb with rfl | rfl <;> omega
  · rcases hb with rfl | rfl | rfl <;> omega
  · rcases hb with rfl | rfl | rfl | rfl <;> omega

theorem utf8Bytes_len_eq (c c' : Char)
    (h : (utf8Bytes c).head? = (utf8Bytes c').head?) :
    (utf8Bytes c).length = (utf8Bytes c').length := by
  unfold utf8Bytes at h ⊢
  dsimp only at h ⊢
  split_ifs at h ⊢ <;> simp_all <;> omega

theorem utf8Bytes_inj (c c' : Char) (h : utf8Bytes c = utf8Bytes c') : c = c' := by
  apply char_toNat_inj
  unfold utf8Bytes at h
  dsimp only at h
  split_ifs at h <;> simp_all <;> omega

theorem flatMap_pct_inj : ∀ (l l' : List Nat) (s s' : List Char),
    (∀ b ∈ l, b < 256) → (∀ b ∈ l', b < 256) → l.length = l'.length →
    l.flatMap pctByte ++ s = l'.flatMap pctByte ++ s' → l = l' ∧ s = s' := by
  intro l
  induction l with
  | nil =>
    intro l' s s' _ _ hlen h
    cases l' with
    | nil => simpa using h
    | cons b' bs' => simp at hlen
  | cons b bs ih =>
    intro l' s s' hl hl' hlen h
    cases l' with
    | nil => simp at hlen
    | cons b' bs' =>
      have hb256 := hl b (List.mem_cons_self b bs)
      have hb256' := hl' b' (List.mem_cons_self b' bs')
      simp only [List.flatMap_cons, List.append_assoc, pctByte, List.cons_append,
        List.cons.injEq] at h
      obtain ⟨-, h1, h2, h3⟩ := h
      have hb : b = b' := by
        have e1 := hexDigit_inj (b / 16) (b' / 16) (by omega) (by omega) h1
        have e2 := hexDigit_inj (b % 16) (b' % 16) (by omega) (by omega) h2
        omega
      subst hb
      have hrec := ih bs' s s' (fun x hx => hl x (List.mem_cons_of_mem _ hx))
        (fun x hx => hl' x (List.mem_cons_of_mem _ hx)) (by simpa using hlen) h3
      exact ⟨by rw [hrec.1], hrec.2⟩

theorem utf8Enc_pfx (c c' : Char) (s s' : List Char)
    (h : (utf8Bytes c).flatMap pctByte ++ s = (utf8Bytes c').flatMap pctByte ++ s') :
    c = c' ∧ s = s' := by
  obtain ⟨b, bs, hc⟩ := utf8Bytes_cons c
  obtain ⟨b', bs', hc'⟩ := utf8Bytes_cons c'
  have hb : b = b' := by
    have hbl : b < 256 := utf8Bytes_lt c b (by rw [hc]; exact List.mem_cons_self _ _)
    have hbl' : b' < 256 := utf8Bytes_lt c' b' (by rw [hc']; exact List.mem_cons_self _ _)
    rw [hc, hc'] at h
    simp only [List.flatMap_cons, List.append_assoc, pctByte, List.cons_append,
      List.cons.injEq] at h
    obtain ⟨-, h1, h2, -⟩ := h
    have e1 := hexDigit_inj (b / 16) (b' / 16) (by omega) (by omega) h1
    have e2 := hexDigit_inj (b % 16) (b' % 16) (by omega) (by omega) h2
    omega
  have hlen : (utf8Bytes c).length = (utf8Bytes c').length := by
    apply utf8Bytes_len_eq
    rw [hc, hc']
    simp [hb]
  obtain ⟨he, hs⟩ := flatMap_pct_inj (utf8Bytes c) (utf8Bytes c') s s'
    (utf8Bytes_lt c) (utf8Bytes_lt c') hlen h
  exact ⟨utf8Bytes_inj c c' he, hs⟩

theorem pct_head (c : Char) :
    ∃ r, (utf8Bytes c).flatMap pctByte = '%' :: r := by
  obtain ⟨b, bs, hc⟩ := utf8Bytes_cons c
  refine ⟨hexDigit (b / 16) :: hexDigit (b % 16) :: bs.flatMap pctByte, ?_⟩
  rw [hc]
  rfl

theorem encodeChar_head (c : Char) :
    (allowedChar c = true ∧ encodeChar c = [c]) ∨
    (allowedChar c = false ∧ c = ' ' ∧ encodeChar c = ['+']) ∨
    (allowedChar c = false ∧ c ≠ ' ' ∧ (∃ r, encodeChar c = '%' :: r) ∧
      encodeChar c = (utf8Bytes c).flatMap pctByte) := by
  unfold encodeChar
  by_cases ha : allowedChar c = true
  · rw [if_pos ha]
    exact Or.inl ⟨ha, rfl⟩
  · rw [if_neg ha]
    by_cases hsp : c = ' '
    · rw [if_pos (by simp [hsp])]
      exact Or.inr (Or.inl ⟨by simpa using ha, hsp, rfl⟩)
    · rw [if_neg (by simp [hsp])]
      exact Or.inr (Or.inr ⟨by simpa using ha, hsp, pct_head c, rfl⟩)

theorem encodeChar_ne_nil (c : Char) : encodeChar c ≠ [] := by
  rcases encodeChar_head c with ⟨-, he⟩ | ⟨-, -, he⟩ | ⟨-, -, ⟨r, hr⟩, -⟩
  · simp [he]
  · simp [he]
  · simp [hr]

theorem encodeChar_pfx (c c' : Char) (s s' : List Char)
    (h : encodeChar c ++ s = encodeChar c' ++ s') : c = c' ∧ s = s' := by
  rcases encodeChar_head c with ⟨ha, he⟩ | ⟨ha, hsp, he⟩ | ⟨ha, hsp, ⟨r, hr⟩, hu⟩ <;>
    rcases encodeChar_head c' with ⟨ha', he'⟩ | ⟨ha', hsp', he'⟩ | ⟨ha', hsp', ⟨r', hr'⟩, hu'⟩
  · rw [he, he'] at h
    simp only [List.singleton_append, List.cons.injEq] at h
    exact h
  · rw [he, he'] at h
    simp only [List.singleton_append, List.cons.injEq] at h
    rw [h.1] at ha
    exact absurd ha (by decide)
  · rw [he, hr'] at h
    simp only [List.singleton_append, List.cons_append, List.cons.injEq] at h
    rw [h.1] at ha
    exact absurd ha (by decide)
  · rw [he, he'] at h
    simp only [List.singleton_append, List.cons.injEq] at h
    rw [← h.1] at ha'
    exact absurd ha' (by decide)
  · rw [he, he'] at h
    simp only [List.singleton_append, List.cons.injEq] at h
    exact ⟨hsp.trans hsp'.symm, h.2⟩
  · rw [he, hr'] at h
    simp only [List.singleton_append, List.cons_append, List.cons.injEq] at h
    exact absurd h.1 (by decide)
  · rw [hr, he'] at h
    simp only [List.singleton_append, List.cons_append, List.cons.injEq] at h
    rw [← h.1] at ha'
    exact absurd ha' (by decide)
  · rw [hr, he'] at h
    simp only [List.singleton_append, List.cons_append, List.cons.injEq] at h
    exact absurd h.1 (by decide)
  · rw [hu, hu'] at h
    exact utf8Enc_pfx c c' s s' h

theorem flatMap_encodeChar_inj : ∀ (l l' : List Char),
    l.flatMap encodeChar = l'.flatMap encodeChar → l = l' := by
  intro l
  induction l with
  | nil =>
    intro l' h
    cases l' with
    | nil => rfl
    | cons c cs =>
      rw [List.flatMap_cons] at h
      exact absurd (List.append_eq_nil.mp h.symm).1 (encodeChar_ne_nil c)
  | cons c cs ih =>
    intro l' h
    cases l' with
    | nil =>
      rw [List.flatMap_cons] at h
      exact absurd (List.append_eq_nil.mp h).1 (encodeChar_ne_nil c)
    | cons c' cs' =>
      rw [List.flatMap_cons, List.flatMap_cons] at h
      obtain ⟨hc, ht⟩ := encodeChar_pfx c c' _ _ h
      rw [hc, ih cs' ht]

theorem mem_encodeChar (x c : Char) (hx : x ∈ encodeChar c) :
    allowedChar x = true ∨ x = '+' ∨ x = '%' := by
  rcases encodeChar_head c with ⟨ha, he⟩ | ⟨ha, hsp, he⟩ | ⟨ha, hsp, hpc, hu⟩
  · rw [he] at hx
    simp at hx
    rw [hx]
    exact Or.inl ha
  · rw [he] at hx
    simp at hx
    rw [hx]
    exact Or.inr (Or.inl rfl)
  · rw [hu] at hx
    rw [List.mem_flatMap] at hx
    obtain ⟨b, hb, hxb⟩ := hx
    have hb256 := utf8Bytes_lt c b hb
    simp only [pctByte, List.mem_cons, List.not_mem_nil, or_false] at hxb
    rcases hxb with rfl | rfl | rfl
    · exact Or.inr (Or.inr rfl)
    · exact Or.inl (allowedChar_hexDigit _ (by omega))
    · exact Or.inl (allowedChar_hexDigit _ (by omega))

theorem encodeChar_no (x c : Char) (hx : x ∈ encodeChar c) :
    x ≠ '=' ∧ x ≠ '&' ∧ x ≠ '?' := by
  rcases mem_encodeChar x c hx with ha | rfl | rfl
  · refine ⟨?_, ?_, ?_⟩ <;> rintro rfl <;> exact absurd ha (by decide)
  · exact ⟨by decide, by decide, by decide⟩
  · exact ⟨by decide, by decide, by decide⟩

theorem encodeComponent_no (x : Char) (s : String) (hx : x ∈ encodeComponent s) :
    x ≠ '=' ∧ x ≠ '&' ∧ x ≠ '?' := by
  unfold encodeComponent at hx
  rw [List.mem_flatMap] at hx
  obtain ⟨c, -, hxc⟩ := hx
  exact encodeChar_no x c hxc

theorem encodeComponent_inj (s s' : String) (h : encodeComponent s = encodeComponent s') :
    s = s' :=
  String.ext (flatMap_encodeChar_inj s.data s'.data h)

theorem append_cons_inj (sep : Char) : ∀ (a a' b b' : List Char),
    sep ∉ a → sep ∉ a' → a ++ sep :: b = a' ++ sep :: b' → a = a' ∧ b = b' := by
  intro a
  induction a with
  | nil =>
    intro a' b b' _ ha' h
    cases a' with
    | nil => simpa using h
    | cons x xs =>
      simp only [List.nil_append, List.cons_append, List.cons.injEq] at h
      exact absurd (List.mem_cons.mpr (Or.inl h.1)) ha'
  | cons y ys ih =>
    intro a' b b' ha ha' h
    cases a' with
    | nil =>
      simp only [List.nil_append, List.cons_append, List.cons.injEq] at h
      exact absurd (List.mem_cons.mpr (Or.inl h.1.symm)) ha
    | cons x xs =>
      simp only [List.cons_append, List.cons.injEq] at h
      obtain ⟨rfl, h2⟩ := h
      have hrec := ih xs b b' (fun hm => ha (List.mem_cons_of_mem _ hm))
        (fun hm => ha' (List.mem_cons_of_mem _ hm)) h2
      exact ⟨by rw [hrec.1], hrec.2⟩

theorem joinAmp_cons_ne_nil (t : List Char) (ts : List (List Char)) (ht : t ≠ []) :
    joinAmp (t :: ts) ≠ [] := by
  cases ts with
  | nil => simpa [joinAmp] using ht
  | cons x xs => simp [joinAmp]

theorem mem_joinAmp (x : Char) : ∀ (ts : List (List Char)),
    x ∈ joinAmp ts → x = '&' ∨ ∃ t ∈ ts, x ∈ t := by
  intro ts
  induction ts with
  | nil =>
    intro h
    simp [joinAmp] at h
  | cons t us ih =>
    intro h
    cases us with
    | nil => exact Or.inr ⟨t, by simp, by simpa [joinAmp] using h⟩
    | cons u vs =>
      have e : joinAmp (t :: u :: vs) = t ++ '&' :: joinAmp (u :: vs) := rfl
      rw [e] at h
      rcases List.mem_append.mp h with hx | hx
      · exact Or.inr ⟨t, by simp, hx⟩
      · rcases List.mem_cons.mp hx with rfl | hx
        · exact Or.inl rfl
        · rcases ih hx with hamp | ⟨v, hv, hxv⟩
          · exact Or.inl hamp
          · exact Or.inr ⟨v, List.mem_cons_of_mem _ hv, hxv⟩

theorem joinAmp_inj : ∀ (ts ts' : List (List Char)),
    (∀ t ∈ ts, t ≠ [] ∧ '&' ∉ t) → (∀ t ∈ ts', t ≠ [] ∧ '&' ∉ t) →
    joinAmp ts = joinAmp ts' → ts = ts' := by
  intro ts
  induction ts with
  | nil =>
    intro ts' _ hts' h
    cases ts' with
    | nil => rfl
    | cons t' us' =>
      exact absurd h.symm (joinAmp_cons_ne_nil t' us' (hts' t' (by simp)).1)
  | cons t us ih =>
    intro ts' hts hts' h
    cases ts' with
    | nil => exact absurd h (joinAmp_cons_ne_nil t us (hts t (by simp)).1)
    | cons t' us' =>
      cases us with
      | nil =>
        cases us' with
        | nil =>
          have e : joinAmp [t] = t := rfl
          have e' : joinAmp [t'] = t' := rfl
          rw [e, e'] at h
          rw [h]
        | cons v' vs' =>
          have e : joinAmp [t] = t := rfl
          have e' : joinAmp (t' :: v' :: vs') = t' ++ '&' :: joinAmp (v' :: vs') := rfl
          rw [e, e'] at h
          have hamp : '&' ∈ t := by
            rw [h]
            exact List.mem_append.mpr (Or.inr (List.mem_cons_self _ _))
          exact absurd hamp (hts t (by simp)).2
      | cons v vs =>
        cases us' with
        | nil =>
          have e : joinAmp (t :: v :: vs) = t ++ '&' :: joinAmp (v :: vs) := rfl
          have e' : joinAmp [t'] = t' := rfl
          rw [e, e'] at h
          have hamp : '&' ∈ t' := by
            rw [← h]
            exact List.mem_append.mpr (Or.inr (List.mem_cons_self _ _))
          exact absurd hamp (hts' t' (by simp)).2
        | cons v' vs' =>
          have e : joinAmp (t :: v :: vs) = t ++ '&' :: joinAmp (v :: vs) := rfl
          have e' : joinAmp (t' :: v' :: vs') = t' ++ '&' :: joinAmp (v' :: vs') := rfl
          rw [e, e'] at h
          obtain ⟨h1, h2⟩ := append_cons_inj '&' t t' _ _ (hts t (by simp)).2
            (hts' t' (by simp)).2 h
          have hrec := ih (v' :: vs') (fun u hu => hts u (List.mem_cons_of_mem _ hu))
            (fun u hu => hts' u (List.mem_cons_of_mem _ hu)) h2
          rw [h1, hrec]

theorem token_props (p : String × String) :
    (encodeComponent p.1 ++ '=' :: encodeComponent p.2) ≠ [] ∧
    '&' ∉ (encodeComponent p.1 ++ '=' :: encodeComponent p.2) := by
  constructor
  · intro h
    simp at h
  · intro hm
    rcases List.mem_append.mp hm with hx | hx
    · exact (encodeComponent_no '&' p.1 hx).2.1 rfl
    · rcases List.mem_cons.mp hx with he | hx
      · exact absurd he (by decide)
      · exact (encodeComponent_no '&' p.2 hx).2.1 rfl

theorem token_inj (p p' : String × String)
    (h : encodeComponent p.1 ++ '=' :: encodeComponent p.2 =
         encodeComponent p'.1 ++ '=' :: encodeComponent p'.2) : p = p' := by
  have h1 : '=' ∉ encodeComponent p.1 := fun hm => (encodeComponent_no '=' p.1 hm).1 rfl
  have h1' : '=' ∉ encodeComponent p'.1 := fun hm => (encodeComponent_no '=' p'.1 hm).1 rfl
  obtain ⟨ha, hb⟩ := append_cons_inj '=' _ _ _ _ h1 h1' h
  exact Prod.ext (encodeComponent_inj _ _ ha) (encodeComponent_inj _ _ hb)

theorem urlSearchParamsToString_inj (q q' : List (String × String))
    (h : urlSearchParamsToString q = urlSearchParamsToString q') : q = q' := by
  unfold urlSearchParamsToString at h
  have hd := congrArg String.data h
  have hts : ∀ t ∈ q.map fun p => encodeComponent p.1 ++ '=' :: encodeComponent p.2,
      t ≠ [] ∧ '&' ∉ t := by
    intro t ht
    rw [List.mem_map] at ht
    obtain ⟨p, -, rfl⟩ := ht
    exact token_props p
  have hts' : ∀ t ∈ q'.map fun p => encodeComponent p.1 ++ '=' :: encodeComponent p.2,
      t ≠ [] ∧ '&' ∉ t := by
    intro t ht
    rw [List.mem_map] at ht
    obtain ⟨p, -, rfl⟩ := ht
    exact token_props p
  have hmap := joinAmp_inj _ _ hts hts' hd
  exact List.map_injective_iff.mpr (fun p p' hp => token_inj p p' hp) hmap

theorem urlSearchParamsToString_eq_empty (q : List (String × String)) :
    urlSearchParamsToString q = "" ↔ q = [] := by
  constructor
  · intro h
    cases q with
    | nil => rfl
    | cons p ps =>
      exfalso
      have hd := congrArg String.data h
      exact joinAmp_cons_ne_nil _ _ (token_props p).1 hd
  · rintro rfl
    rfl

theorem qmark_not_mem_usp (q : List (String × String)) :
    '?' ∉ (urlSearchParamsToString q).data := by
  intro hm
  rcases mem_joinAmp '?' _ hm with he | ⟨t, ht, hxt⟩
  · exact absurd he (by decide)
  · rw [List.mem_map] at ht
    obtain ⟨p, -, rfl⟩ := ht
    rcases List.mem_append.mp hxt with hx | hx
    · exact (encodeComponent_no '?' p.1 hx).2.2 rfl
    · rcases List.mem_cons.mp hx with he | hx
      · exact absurd he (by decide)
      · exact (encodeComponent_no '?' p.2 hx).2.2 rfl

/-- C8: for requests whose path contains no question mark (as Express
guarantees for `req.path`), the derived upstream URL — the cache key — is
equal for two requests exactly when their paths and query parameter lists
are identical. -/
theorem claim_C8 (r₁ r₂ : Request)
    (h₁ : '?' ∉ r₁.path.data) (h₂ : '?' ∉ r₂.path.data) :
    buildUrl r₁ = buildUrl r₂ ↔ (r₁.path = r₂.path ∧ r₁.query = r₂.query) := by
  constructor
  · intro h
    unfold buildUrl at h
    dsimp only at h
    have hqm : ("?" : String).data = ['?'] := rfl
    have hemp : ("" : String).data = [] := rfl
    by_cases hq₁ : urlSearchParamsToString r₁.query = ""
    · by_cases hq₂ : urlSearchParamsToString r₂.query = ""
      · rw [if_pos hq₁, if_pos hq₂] at h
        have hd := congrArg String.data h
        simp only [String.data_append, List.append_assoc, hemp, List.append_nil] at hd
        have hp := List.append_cancel_left hd
        exact ⟨String.ext hp, by
          rw [(urlSearchParamsToString_eq_empty r₁.query).mp hq₁,
            (urlSearchParamsToString_eq_empty r₂.query).mp hq₂]⟩
      · rw [if_pos hq₁, if_neg hq₂] at h
        have hd := congrArg String.data h
        simp only [String.data_append, List.append_assoc, hemp, hqm, List.append_nil,
          List.singleton_append] at hd
        have hp := List.append_cancel_left hd
        exact absurd (hp ▸ List.mem_append.mpr
          (Or.inr (List.mem_cons_self _ _))) h₁
    · by_cases hq₂ : urlSearchParamsToString r₂.query = ""
      · rw [if_neg hq₁, if_pos hq₂] at h
        have hd := congrArg String.data h
        simp only [String.data_append, List.append_assoc, hemp, hqm, List.append_nil,
          List.singleton_append] at hd
        have hp := List.append_cancel_left hd
        exact absurd (hp ▸ List.mem_append.mpr
          (Or.inr (List.mem_cons_self _ _))) h₂
      · rw [if_neg hq₁, if_neg hq₂] at h
        have hd := congrArg String.data h
        simp only [String.data_append, List.append_assoc, hqm,
          List.singleton_append] at hd
        have hp := List.append_cancel_left hd
        obtain ⟨hpa, hqa⟩ := append_cons_inj '?' _ _ _ _ h₁ h₂ hp
        exact ⟨String.ext hpa,
          urlSearchParamsToString_inj _ _ (String.ext hqa)⟩
  · rintro ⟨hp, hq⟩
    unfold buildUrl
    rw [hp, hq]

/-- Witness for C8 at a concrete input: the derived URL ignores the API-key
header, so two requests with identical path and query share the cache key. -/
theorem claim_C8_witness :
    buildUrl ⟨"/v1/events", [("league", "NBA")], none⟩ =
      buildUrl ⟨"/v1/events", [("league", "NBA")], some "k"⟩ := by
  exact (claim_C8 ⟨"/v1/events", [("league", "NBA")], none⟩
    ⟨"/v1/events", [("league", "NBA")], some "k"⟩ (by decide) (by decide)).mpr ⟨rfl, rfl⟩

end OddsEngineProxy
